import Mathlib

/-
Verification of the NBA statistics pipeline's field normalizers,
unknown-player reference resolution, boxscore parsing and upsert
persistence, shallowly embedded from the Python sources
(utils/playerUtils.py, utils/nbaApiUtils.py, parsers/dataParsers.py,
utils/databaseUtils.py).  Python strings are modelled as lists of
characters, Python floats as rationals, and database tables as lists
of typed rows.
-/

/-- Python strings are modelled as lists of characters. -/
abbrev Str := List Char

/-- The default whitespace characters removed by Python's `str.strip()`. -/
def isPySpace (c : Char) : Bool :=
  c == ' ' || c == '\t' || c == '\n' || c == '\r' || c == '\x0b' || c == '\x0c'

/-- Python `str.strip()`: remove whitespace from both ends. -/
def pyStrip (s : Str) : Str :=
  ((s.dropWhile isPySpace).reverse.dropWhile isPySpace).reverse

/-- Python `str.split(sep)` for a single-character separator:
`"".split(sep) = [""]`, and separators at the ends yield empty parts. -/
def pySplit (sep : Char) : Str → List Str
  | [] => [[]]
  | c :: cs =>
    if c = sep then [] :: pySplit sep cs
    else
      match pySplit sep cs with
      | [] => [[c]]
      | h :: t => (c :: h) :: t

/-- Value of a string of decimal digits. -/
def digitsToNat (ds : Str) : Nat :=
  ds.foldl (fun a c => 10 * a + (c.toNat - 48)) 0

/-- Python `int(s)` on a string: surrounding whitespace is ignored, an
optional single leading sign is allowed, and the rest must be a nonempty
run of decimal digits; every other string raises `ValueError`, modelled
as `none`. -/
def pyInt? (s : Str) : Option Int :=
  match pyStrip s with
  | ('+') :: ds => if ds ≠ [] ∧ ds.all Char.isDigit then some (digitsToNat ds) else none
  | ('-') :: ds => if ds ≠ [] ∧ ds.all Char.isDigit then some (-(digitsToNat ds : Int)) else none
  | ds => if ds ≠ [] ∧ ds.all Char.isDigit then some (digitsToNat ds) else none

/-- Left-to-right association lookup (first binding wins), as in a
Python `dict` membership test followed by indexing over distinct keys. -/
def pyLookup {α : Type} : List (Str × α) → Str → Option α
  | [], _ => none
  | (k, v) :: rest, q => if q = k then some v else pyLookup rest q

/-- Python `sep.join(parts)`. -/
def pyJoin (sep : Str) : List Str → Str
  | [] => []
  | [c] => c
  | c :: rest => c ++ sep ++ pyJoin sep rest

/-- The `position_mapping` table of `normalize_position`
(utils/playerUtils.py). -/
def position_mapping : List (Str × Str) :=
  [(("Forward-Center").data, ("F-C").data),
   (("Center-Forward").data, ("C-F").data),
   (("Guard-Forward").data, ("G-F").data),
   (("Forward-Guard").data, ("F-G").data),
   (("Point Guard").data, ("PG").data),
   (("Shooting Guard").data, ("SG").data),
   (("Small Forward").data, ("SF").data),
   (("Power Forward").data, ("PF").data),
   (("Center").data, ("C").data),
   (("Forward").data, ("F").data),
   (("Guard").data, ("G").data)]

/-- The truncation step of `normalize_position` for labels longer than
10 characters: hyphen-compound labels are abbreviated to the first
letter of each nonempty hyphen-part joined with hyphens and capped at
10 characters, other labels are hard-truncated to 10 characters. -/
def truncatePosition (p : Str) : Str :=
  if ('-') ∈ p then
    (pyJoin [('-')]
      (((pySplit ('-') p).filter (fun part => !part.isEmpty)).map
        (fun part => part.take 1))).take 10
  else p.take 10

/-- `normalize_position` (utils/playerUtils.py): empty or literal
`"nan"` input yields `"G"`; otherwise the input is stripped, looked up
in the fixed mapping table, and truncated to at most 10 characters when
no mapping applies. -/
def normalize_position (position : Str) : Str :=
  if position = [] ∨ position = ("nan").data then ("G").data
  else
    match pyLookup position_mapping (pyStrip position) with
    | some v => v
    | none =>
      if 10 < (pyStrip position).length then truncatePosition (pyStrip position)
      else pyStrip position

/-- `parse_height_to_inches` (utils/playerUtils.py): a string of the
form `"F-I"` yields `F*12 + I`; everything else (including any parse
failure, caught by the bare `except`) yields the default `72`. -/
def parse_height_to_inches (height_str : Str) : Int :=
  if height_str = [] ∨ height_str = ("nan").data then 72
  else if ('-') ∈ height_str then
    match pySplit ('-') height_str with
    | [f, i] =>
      match pyInt? f, pyInt? i with
      | some a, some b => a * 12 + b
      | _, _ => 72
    | _ => 72
  else 72

/-- `parse_minutes_to_decimal` (utils/nbaApiUtils.py): an `"MM:SS"`
string yields `MM + SS/60`; a string without `:`, or one whose split
does not unpack into two integer parts, yields `0.0`.  The Python
float is modelled as a rational. -/
def parse_minutes_to_decimal (min_str : Str) : ℚ :=
  if (':') ∈ min_str then
    match pySplit (':') min_str with
    | [a, b] =>
      match pyInt? a, pyInt? b with
      | some x, some y => (x : ℚ) + (y : ℚ) / 60
      | _, _ => 0
    | _ => 0
  else 0

/-- Well-formed `"MM:SS"` input: the split on `:` yields exactly two
parts and both parse as Python integers. -/
def minutesWF (s : Str) : Prop :=
  match pySplit (':') s with
  | [a, b] => (pyInt? a).isSome ∧ (pyInt? b).isSome
  | _ => False

/-- Well-formed `"F-I"` input: the split on `-` yields exactly two
parts and both parse as Python integers. -/
def heightWF (s : Str) : Prop :=
  match pySplit ('-') s with
  | [f, i] => (pyInt? f).isSome ∧ (pyInt? i).isSome
  | _ => False

/-- A Python value appearing in an API payload row. -/
inductive PyVal : Type
  | pnone
  | pstr (s : Str)
  | pint (n : Int)
  | pfloat (q : ℚ)
  | pbool (b : Bool)
deriving DecidableEq

/-- Python truthiness, as used by `if not stats_dict.get('MIN')`. -/
def pyTruthy : PyVal → Bool
  | .pnone => false
  | .pstr s => !s.isEmpty
  | .pint n => n != 0
  | .pfloat q => q != 0
  | .pbool b => b

/-- Python `str(v)`.  Floats are already modelled as rationals, so
their rendering follows the rational's rendering; the ids this is
applied to are ints or strings. -/
def pyStr : PyVal → Str
  | .pnone => ("None").data
  | .pstr s => s
  | .pint n => (toString n).data
  | .pfloat q => (toString q).data
  | .pbool b => if b then ("True").data else ("False").data

/-- A decoded row: `dict(zip(headers, row))`, kept as the association
list; with duplicate headers the later binding wins, so lookups read
the reversed list. -/
abbrev Row := List (Str × PyVal)

def mkDict (headers : List Str) (vals : List PyVal) : Row := headers.zip vals

/-- Python `d.get(k)` without a default (`none` when the key is absent). -/
def dget (d : Row) (k : Str) : Option PyVal := pyLookup d.reverse k

/-- Python `d.get(k, v)` with a default. -/
def dgetD (d : Row) (k : Str) (v : PyVal) : PyVal := (dget d k).getD v

/-- Supplementary player details as returned by a successful
`fetch_player_details` (utils/playerUtils.py): the field-normalized
height, weight, age, position, experience and the provider-listed
current team. -/
structure PlayerDetails where
  height_inches : Int
  weight_pounds : Int
  age : Option Int
  position : Str
  years_experience : Int
  team_id : Str
  team_name : Str
deriving DecidableEq

/-- A row of the `players` table. -/
structure PlayerRow where
  id : Str
  name : PyVal
  team_id : Option Str
  age : Option Int
  position : Str
  height_inches : Int
  weight_pounds : Int
  years_experience : Int
deriving DecidableEq

/-- The locally persisted reference store: the `teams` table (its ids)
and the `players` table. -/
structure DB where
  teams : List Str
  players : List PlayerRow
deriving DecidableEq

/-- `INSERT INTO players ... ON CONFLICT (id) DO UPDATE`: a row whose
id already exists has every non-key field overwritten, otherwise the
row is appended. -/
def upsertPlayer (ps : List PlayerRow) (r : PlayerRow) : List PlayerRow :=
  if ps.any (fun x => decide (x.id = r.id)) then
    ps.map (fun x => if x.id = r.id then r else x)
  else ps ++ [r]

def rowPlayerId (d : Row) : Str := pyStr (dgetD d ("PLAYER_ID").data .pnone)

def rowPlayerName (d : Row) : PyVal :=
  dgetD d ("PLAYER_NAME").data (.pstr (("Player ").data ++ rowPlayerId d))

def rowGameTeamId (d : Row) : Str := pyStr (dgetD d ("TEAM_ID").data .pnone)

/-- `add_unknown_player` (utils/playerUtils.py).  The provider fetch
`fetch_player_details` is modelled as an oracle from player id to an
optional details record (`none` = provider error or empty payload);
`team_exists_func` is membership in the locally persisted team set;
the write is the `players` upsert. -/
def add_unknown_player (provider : Str → Option PlayerDetails) (db : DB) (d : Row) :
    Bool × DB :=
  let player_id := rowPlayerId d
  let player_name := rowPlayerName d
  let game_team_id := rowGameTeamId d
  let details := provider player_id
  let team_id : Str :=
    match details with
    | some det =>
      if det.team_id = [] ∨ det.team_id = ("0").data ∨ det.team_id = ("None").data then
        game_team_id
      else if det.team_id ∈ db.teams then det.team_id
      else game_team_id
    | none => game_team_id
  let newRow : PlayerRow :=
    match details with
    | some det =>
      { id := player_id, name := player_name, team_id := some team_id,
        age := det.age, position := normalize_position det.position,
        height_inches := det.height_inches, weight_pounds := det.weight_pounds,
        years_experience := det.years_experience }
    | none =>
      { id := player_id, name := player_name, team_id := some team_id,
        age := none, position := ("G").data, height_inches := 72,
        weight_pounds := 200, years_experience := 0 }
  if team_id ∈ db.teams then
    (true, { db with players := upsertPlayer db.players newRow })
  else (false, db)

/-- The team tie-break exactly as the specification states it, for
comparison against the implementation: an empty, `"0"` or `"None"`
provider-listed team yields the game team; a provider-listed team not
present locally yields the game team; otherwise the provider-listed
team. -/
def specChosenTeam (api gid : Str) (teams : List Str) : Str :=
  if api = [] ∨ api = ("0").data ∨ api = ("None").data then gid
  else if api ∉ teams then gid
  else api

def findPlayer (ps : List PlayerRow) (pid : Str) : Option PlayerRow :=
  ps.find? (fun r => decide (r.id = pid))

/-- The foreign-key invariant: every persisted player's non-null
team reference names a locally persisted team. -/
def teamRefOk (db : DB) : Prop :=
  ∀ r ∈ db.players, ∀ t, r.team_id = some t → t ∈ db.teams

/-- One named table of an API payload's `resultSets`. -/
structure ResultSet where
  name : Str
  headers : List Str
  rowSet : List (List PyVal)
deriving DecidableEq

/-- The `for result_set in boxscore_data['resultSets']: if name == n:
break` scan: the first table of the requested name, if any. -/
def findTable (n : Str) (sets : List ResultSet) : Option ResultSet :=
  sets.find? (fun rs => decide (rs.name = n))

/-- Numeric value of a Python object for the score comparison in
`parse_team_stats` (ints, floats, bools); `>` on other values is
outside the payload contract and modelled as `false`. -/
def pyNumQ : PyVal → Option ℚ
  | .pint n => some (n : ℚ)
  | .pfloat q => some q
  | .pbool b => some (if b then 1 else 0)
  | _ => none

def pyGt (a b : PyVal) : Bool :=
  match pyNumQ a, pyNumQ b with
  | some x, some y => decide (y < x)
  | _, _ => false

/-- A row of `team_game_stats` as built by
`TraditionalStatsParser.parse_team_stats`. -/
structure TeamGameStats where
  team_id : Str
  game_id : Str
  points : PyVal
  opponent_points : PyVal
  win : Bool
  field_goals_made : PyVal
  field_goals_attempted : PyVal
  field_goal_percentage : PyVal
  three_pointers_made : PyVal
  three_pointers_attempted : PyVal
  three_point_percentage : PyVal
  free_throws_made : PyVal
  free_throws_attempted : PyVal
  free_throw_percentage : PyVal
  offensive_rebounds : PyVal
  defensive_rebounds : PyVal
  total_rebounds : PyVal
  assists : PyVal
  steals : PyVal
  blocks : PyVal
  turnovers : PyVal
  personal_fouls : PyVal
  plus_minus : PyVal
  game_type : Str
deriving DecidableEq

def mkTeamStat (headers : List Str) (row : List PyVal) (game_id home_team_id : Str) :
    TeamGameStats :=
  let d := mkDict headers row
  let team_id := pyStr (dgetD d ("TEAM_ID").data .pnone)
  { team_id := team_id
    game_id := game_id
    points := dgetD d ("PTS").data (.pint 0)
    opponent_points := .pint 0
    win := false
    field_goals_made := dgetD d ("FGM").data (.pint 0)
    field_goals_attempted := dgetD d ("FGA").data (.pint 0)
    field_goal_percentage := dgetD d ("FG_PCT").data (.pfloat 0)
    three_pointers_made := dgetD d ("FG3M").data (.pint 0)
    three_pointers_attempted := dgetD d ("FG3A").data (.pint 0)
    three_point_percentage := dgetD d ("FG3_PCT").data (.pfloat 0)
    free_throws_made := dgetD d ("FTM").data (.pint 0)
    free_throws_attempted := dgetD d ("FTA").data (.pint 0)
    free_throw_percentage := dgetD d ("FT_PCT").data (.pfloat 0)
    offensive_rebounds := dgetD d ("OREB").data (.pint 0)
    defensive_rebounds := dgetD d ("DREB").data (.pint 0)
    total_rebounds := dgetD d ("REB").data (.pint 0)
    assists := dgetD d ("AST").data (.pint 0)
    steals := dgetD d ("STL").data (.pint 0)
    blocks := dgetD d ("BLK").data (.pint 0)
    turnovers := dgetD d ("TO").data (.pint 0)
    personal_fouls := dgetD d ("PF").data (.pint 0)
    plus_minus := dgetD d ("PLUS_MINUS").data (.pfloat 0)
    game_type := if team_id = home_team_id then ("Home").data else ("Away").data }

/-- `TraditionalStatsParser.parse_team_stats` (parsers/dataParsers.py):
locate the `"TeamStats"` table (absence yields zero rows), build one
record per row, and when exactly two teams are present fill in each
side's opponent points and win flag. -/
def parse_team_stats (sets : List ResultSet) (game_id home_team_id : Str) :
    List TeamGameStats :=
  match findTable (("TeamStats").data) sets with
  | none => []
  | some ts =>
    match ts.rowSet.map (fun row => mkTeamStat ts.headers row game_id home_team_id) with
    | [a, b] =>
      [{ a with opponent_points := b.points, win := pyGt a.points b.points },
       { b with opponent_points := a.points, win := pyGt b.points a.points }]
    | l => l

/-- A row of `player_game_stats` as built by
`TraditionalStatsParser.parse_player_stats`. -/
structure PlayerGameStats where
  player_id : Str
  game_id : Str
  team_id : Str
  minutes_played : ℚ
  points : PyVal
  field_goals_made : PyVal
  field_goals_attempted : PyVal
  field_goal_percentage : PyVal
  three_pointers_made : PyVal
  three_pointers_attempted : PyVal
  three_point_percentage : PyVal
  free_throws_made : PyVal
  free_throws_attempted : PyVal
  free_throw_percentage : PyVal
  offensive_rebounds : PyVal
  defensive_rebounds : PyVal
  total_rebounds : PyVal
  assists : PyVal
  steals : PyVal
  blocks : PyVal
  turnovers : PyVal
  personal_fouls : PyVal
  plus_minus : PyVal
  started : Bool
  game_type : Str
deriving DecidableEq

/-- The `MIN` column of these payloads is a clock string;
`parse_minutes_to_decimal` is applied to it. -/
def pyMinutes (v : PyVal) : ℚ :=
  match v with
  | .pstr s => parse_minutes_to_decimal s
  | _ => 0

/-- The skip test `if not stats_dict.get('MIN') or stats_dict['MIN']
== '0:00'` applied to rows of players who did not play. -/
def skipMin (d : Row) : Bool :=
  !pyTruthy (dgetD d ("MIN").data .pnone) ||
    decide (dgetD d ("MIN").data .pnone = .pstr (("0:00").data))

/-- `stats_dict.get('START_POSITION') is not None and
stats_dict.get('START_POSITION') != ''`. -/
def startedOf (d : Row) : Bool :=
  match dget d ("START_POSITION").data with
  | none => false
  | some .pnone => false
  | some v => decide (v ≠ .pstr [])

def mkPlayerStat (headers : List Str) (row : List PyVal) (game_id home_team_id : Str) :
    PlayerGameStats :=
  let d := mkDict headers row
  let player_id := pyStr (dgetD d ("PLAYER_ID").data .pnone)
  let team_id := pyStr (dgetD d ("TEAM_ID").data .pnone)
  { player_id := player_id
    game_id := game_id
    team_id := team_id
    minutes_played := pyMinutes (dgetD d ("MIN").data (.pstr (("0:00").data)))
    points := dgetD d ("PTS").data (.pint 0)
    field_goals_made := dgetD d ("FGM").data (.pint 0)
    field_goals_attempted := dgetD d ("FGA").data (.pint 0)
    field_goal_percentage := dgetD d ("FG_PCT").data (.pfloat 0)
    three_pointers_made := dgetD d ("FG3M").data (.pint 0)
    three_pointers_attempted := dgetD d ("FG3A").data (.pint 0)
    three_point_percentage := dgetD d ("FG3_PCT").data (.pfloat 0)
    free_throws_made := dgetD d ("FTM").data (.pint 0)
    free_throws_attempted := dgetD d ("FTA").data (.pint 0)
    free_throw_percentage := dgetD d ("FT_PCT").data (.pfloat 0)
    offensive_rebounds := dgetD d ("OREB").data (.pint 0)
    defensive_rebounds := dgetD d ("DREB").data (.pint 0)
    total_rebounds := dgetD d ("REB").data (.pint 0)
    assists := dgetD d ("AST").data (.pint 0)
    steals := dgetD d ("STL").data (.pint 0)
    blocks := dgetD d ("BLK").data (.pint 0)
    turnovers := dgetD d ("TO").data (.pint 0)
    personal_fouls := dgetD d ("PF").data (.pint 0)
    plus_minus := dgetD d ("PLUS_MINUS").data (.pfloat 0)
    started := startedOf d
    game_type := if team_id = home_team_id then ("Home").data else ("Away").data }

/-- The observable state threaded through a player-stats parse: the
reference store, the caller's working set of known player ids, the log
of player ids for which a provider fetch was issued, and the batch of
accepted statistics rows. -/
structure Outcome (α : Type) where
  db : DB
  existing : List Str
  fetched : List Str
  stats : List α
deriving DecidableEq

/-- The body of the row loop of
`TraditionalStatsParser.parse_player_stats`: skip rows without minutes
played; accept rows of known players as-is; otherwise resolve the
unknown player via `add_unknown_player` (which issues one provider
fetch), accepting the row and recording the id on success and skipping
the row on failure. -/
def processPlayerRow (provider : Str → Option PlayerDetails)
    (game_id home_team_id : Str) (headers : List Str)
    (st : Outcome PlayerGameStats) (row : List PyVal) : Outcome PlayerGameStats :=
  let d := mkDict headers row
  if skipMin d then st
  else
    let player_id := rowPlayerId d
    if player_id ∈ st.existing then
      { st with stats := st.stats ++ [mkPlayerStat headers row game_id home_team_id] }
    else
      let res := add_unknown_player provider st.db d
      if res.1 then
        { db := res.2, existing := st.existing ++ [player_id],
          fetched := st.fetched ++ [player_id],
          stats := st.stats ++ [mkPlayerStat headers row game_id home_team_id] }
      else { st with db := res.2, fetched := st.fetched ++ [player_id] }

/-- `TraditionalStatsParser.parse_player_stats` (parsers/dataParsers.py):
locate the `"PlayerStats"` table (absence yields zero rows and no
side effects) and fold the row loop over its rows.  Only the home-team
id field of the game data is consulted, so it is passed directly. -/
def parse_player_stats (provider : Str → Option PlayerDetails)
    (sets : List ResultSet) (game_id home_team_id : Str)
    (db : DB) (existing : List Str) : Outcome PlayerGameStats :=
  match findTable (("PlayerStats").data) sets with
  | none => { db := db, existing := existing, fetched := [], stats := [] }
  | some ps =>
    ps.rowSet.foldl (processPlayerRow provider game_id home_team_id ps.headers)
      { db := db, existing := existing, fetched := [], stats := [] }

/-- A row of `player_advanced_stats` as built by
`AdvancedStatsParser.parse_player_advanced_stats`. -/
structure PlayerAdvancedStats where
  player_id : Str
  game_id : Str
  team_id : Str
  offensive_rating : PyVal
  defensive_rating : PyVal
  net_rating : PyVal
  assist_percentage : PyVal
  assist_turnover_ratio : PyVal
  assist_ratio : PyVal
  offensive_rebound_percentage : PyVal
  defensive_rebound_percentage : PyVal
  rebound_percentage : PyVal
  turnover_percentage : PyVal
  effective_field_goal_percentage : PyVal
  true_shooting_percentage : PyVal
  usage_percentage : PyVal
  pace : PyVal
  pie : PyVal
  game_type : Str
deriving DecidableEq

def mkPlayerAdvStat (headers : List Str) (row : List PyVal)
    (game_id home_team_id : Str) : PlayerAdvancedStats :=
  let d := mkDict headers row
  let player_id := pyStr (dgetD d ("PLAYER_ID").data .pnone)
  let team_id := pyStr (dgetD d ("TEAM_ID").data .pnone)
  { player_id := player_id
    game_id := game_id
    team_id := team_id
    offensive_rating := dgetD d ("OFF_RATING").data (.pfloat 0)
    defensive_rating := dgetD d ("DEF_RATING").data (.pfloat 0)
    net_rating := dgetD d ("NET_RATING").data (.pfloat 0)
    assist_percentage := dgetD d ("AST_PCT").data (.pfloat 0)
    assist_turnover_ratio := dgetD d ("AST_TO").data (.pfloat 0)
    assist_ratio := dgetD d ("AST_RATIO").data (.pfloat 0)
    offensive_rebound_percentage := dgetD d ("OREB_PCT").data (.pfloat 0)
    defensive_rebound_percentage := dgetD d ("DREB_PCT").data (.pfloat 0)
    rebound_percentage := dgetD d ("REB_PCT").data (.pfloat 0)
    turnover_percentage := dgetD d ("TOV_PCT").data (.pfloat 0)
    effective_field_goal_percentage := dgetD d ("EFG_PCT").data (.pfloat 0)
    true_shooting_percentage := dgetD d ("TS_PCT").data (.pfloat 0)
    usage_percentage := dgetD d ("USG_PCT").data (.pfloat 0)
    pace := dgetD d ("PACE").data (.pfloat 0)
    pie := dgetD d ("PIE").data (.pfloat 0)
    game_type := if team_id = home_team_id then ("Home").data else ("Away").data }

/-- The body of the row loop of
`AdvancedStatsParser.parse_player_advanced_stats`, with the same
minutes skip and unknown-player resolution as the traditional parser. -/
def processAdvRow (provider : Str → Option PlayerDetails)
    (game_id home_team_id : Str) (headers : List Str)
    (st : Outcome PlayerAdvancedStats) (row : List PyVal) : Outcome PlayerAdvancedStats :=
  let d := mkDict headers row
  if skipMin d then st
  else
    let player_id := rowPlayerId d
    if player_id ∈ st.existing then
      { st with stats := st.stats ++ [mkPlayerAdvStat headers row game_id home_team_id] }
    else
      let res := add_unknown_player provider st.db d
      if res.1 then
        { db := res.2, existing := st.existing ++ [player_id],
          fetched := st.fetched ++ [player_id],
          stats := st.stats ++ [mkPlayerAdvStat headers row game_id home_team_id] }
      else { st with db := res.2, fetched := st.fetched ++ [player_id] }

/-- `AdvancedStatsParser.parse_player_advanced_stats`
(parsers/dataParsers.py). -/
def parse_player_advanced_stats (provider : Str → Option PlayerDetails)
    (sets : List ResultSet) (game_id home_team_id : Str)
    (db : DB) (existing : List Str) : Outcome PlayerAdvancedStats :=
  match findTable (("PlayerStats").data) sets with
  | none => { db := db, existing := existing, fetched := [], stats := [] }
  | some ps =>
    ps.rowSet.foldl (processAdvRow provider game_id home_team_id ps.headers)
      { db := db, existing := existing, fetched := [], stats := [] }

/-- The natural key of `player_game_stats`: `(player_id, game_id)`,
the `ON CONFLICT` target of `insert_player_game_stats`. -/
def statKey (r : PlayerGameStats) : Str × Str := (r.player_id, r.game_id)

/-- One row of the `INSERT INTO player_game_stats ... ON CONFLICT
(player_id, game_id) DO UPDATE` of
`DatabaseManager.insert_player_game_stats` (utils/databaseUtils.py):
a conflicting row has every non-key field overwritten with the
incoming value, otherwise the row is appended. -/
def upsertStat (tbl : List PlayerGameStats) (r : PlayerGameStats) : List PlayerGameStats :=
  if tbl.any (fun x => decide (statKey x = statKey r)) then
    tbl.map (fun x => if statKey x = statKey r then r else x)
  else tbl ++ [r]

/-- `DatabaseManager.insert_player_game_stats`: upsert a batch of
player game statistics rows. -/
def insert_player_game_stats (tbl : List PlayerGameStats)
    (batch : List PlayerGameStats) : List PlayerGameStats :=
  batch.foldl upsertStat tbl

lemma mem_dropWhile_or {p : Char → Bool} {l : Str} {c : Char} (h : c ∈ l) :
    p c = true ∨ c ∈ l.dropWhile p := by
  have hsplit := List.takeWhile_append_dropWhile (p := p) (l := l)
  rw [← hsplit] at h
  rcases List.mem_append.mp h with h1 | h2
  · exact Or.inl (List.mem_takeWhile_imp h1)
  · exact Or.inr h2

lemma mem_pyStrip_or {l : Str} {c : Char} (h : c ∈ l) :
    isPySpace c = true ∨ c ∈ pyStrip l := by
  unfold pyStrip
  rcases mem_dropWhile_or (p := isPySpace) h with hs | h1
  · exact Or.inl hs
  · have h2 : c ∈ (l.dropWhile isPySpace).reverse := List.mem_reverse.mpr h1
    rcases mem_dropWhile_or (p := isPySpace) h2 with hs | h3
    · exact Or.inl hs
    · exact Or.inr (List.mem_reverse.mpr h3)

lemma pyInt?_chars {s : Str} {m : Int} (h : pyInt? s = some m) :
    ∀ c ∈ s, isPySpace c = true ∨ c = '+' ∨ c = '-' ∨ c.isDigit = true := by
  intro c hc
  rcases mem_pyStrip_or hc with hs | hcore
  · exact Or.inl hs
  · right
    unfold pyInt? at h
    split at h
    case _ ds heq =>
      rw [heq] at hcore
      split at h
      case _ hcond =>
        rcases List.mem_cons.mp hcore with rfl | hds
        · exact Or.inl rfl
        · exact Or.inr (Or.inr (List.all_eq_true.mp hcond.2 c hds))
      case _ => exact absurd h (by simp)
    case _ ds heq =>
      rw [heq] at hcore
      split at h
      case _ hcond =>
        rcases List.mem_cons.mp hcore with rfl | hds
        · exact Or.inr (Or.inl rfl)
        · exact Or.inr (Or.inr (List.all_eq_true.mp hcond.2 c hds))
      case _ => exact absurd h (by simp)
    case _ ds hne1 hne2 =>
      split at h
      case _ hcond => exact Or.inr (Or.inr (List.all_eq_true.mp hcond.2 c hcore))
      case _ => exact absurd h (by simp)

lemma pySplit_no_sep {sep : Char} {b : Str} (h : ∀ c ∈ b, c ≠ sep) :
    pySplit sep b = [b] := by
  induction b with
  | nil => rfl
  | cons c cs ih =>
    unfold pySplit
    rw [if_neg (h c (List.mem_cons_self c cs))]
    rw [ih (fun d hd => h d (List.mem_cons_of_mem c hd))]

lemma pySplit_append {sep : Char} {a b : Str} (h : ∀ c ∈ a, c ≠ sep) :
    pySplit sep (a ++ sep :: b) = a :: pySplit sep b := by
  induction a with
  | nil => simp [pySplit]
  | cons c a' ih =>
    have hne : c ≠ sep := h c (List.mem_cons_self c a')
    have ih' := ih (fun d hd => h d (List.mem_cons_of_mem c hd))
    show pySplit sep (c :: (a' ++ sep :: b)) = (c :: a') :: pySplit sep b
    rw [pySplit]
    rw [if_neg hne, ih']

lemma parse_minutes_eq_of_split {s a b : Str} (hc : (':') ∈ s)
    (hsplit : pySplit (':') s = [a, b]) :
    parse_minutes_to_decimal s =
      match pyInt? a, pyInt? b with
      | some x, some y => (x : ℚ) + (y : ℚ) / 60
      | _, _ => 0 := by
  unfold parse_minutes_to_decimal
  rw [if_pos hc, hsplit]

lemma parse_height_eq_of_split {s a b : Str}
    (h0 : ¬(s = [] ∨ s = ("nan").data)) (hc : ('-') ∈ s)
    (hsplit : pySplit ('-') s = [a, b]) :
    parse_height_to_inches s =
      match pyInt? a, pyInt? b with
      | some f, some i => f * 12 + i
      | _, _ => 72 := by
  unfold parse_height_to_inches
  rw [if_neg h0, if_pos hc, hsplit]

/-- C6: `minutesToDecimal` is a total function; on every well-formed
`"MM:SS"` input with integer minute and second parts it returns
`MM + SS/60`, and on every malformed input it returns exactly `0.0`. -/
theorem minutes_to_decimal_spec :
    (∀ a b x y, pyInt? a = some x → pyInt? b = some y →
      parse_minutes_to_decimal (a ++ (':') :: b) = (x : ℚ) + (y : ℚ) / 60) ∧
    (∀ s, ¬ minutesWF s → parse_minutes_to_decimal s = 0) := by
  constructor
  · intro a b x y hx hy
    have hca : ∀ c ∈ a, c ≠ ':' := by
      intro c hc heq
      rcases pyInt?_chars hx c hc with h | h | h | h <;> (subst heq; revert h; decide)
    have hcb : ∀ c ∈ b, c ≠ ':' := by
      intro c hc heq
      rcases pyInt?_chars hy c hc with h | h | h | h <;> (subst heq; revert h; decide)
    have hmem : (':') ∈ a ++ (':') :: b :=
      List.mem_append_right a (List.mem_cons_self _ _)
    have hsplit : pySplit (':') (a ++ (':') :: b) = [a, b] := by
      rw [pySplit_append hca, pySplit_no_sep hcb]
    rw [parse_minutes_eq_of_split hmem hsplit, hx, hy]
  · intro s hwf
    by_cases hc : (':') ∈ s
    · rcases hsplit : pySplit (':') s with _ | ⟨a, _ | ⟨b, _ | ⟨c, t⟩⟩⟩
      · unfold parse_minutes_to_decimal
        rw [if_pos hc, hsplit]
      · unfold parse_minutes_to_decimal
        rw [if_pos hc, hsplit]
      · rw [parse_minutes_eq_of_split hc hsplit]
        rcases hA : pyInt? a with _ | x <;> rcases hB : pyInt? b with _ | y
        · rfl
        · rfl
        · rfl
        · exfalso
          apply hwf
          unfold minutesWF
          rw [hsplit]
          exact ⟨by rw [hA]; rfl, by rw [hB]; rfl⟩
      · unfold parse_minutes_to_decimal
        rw [if_pos hc, hsplit]
    · unfold parse_minutes_to_decimal
      rw [if_neg hc]

/-- Witness for C6 at the inputs `"12:30"` (well-formed) and `"x"`
(malformed). -/
theorem minutes_to_decimal_spec_w :
    parse_minutes_to_decimal (("12").data ++ (':') :: ("30").data) =
      ((12 : Int) : ℚ) + ((30 : Int) : ℚ) / 60 ∧
    parse_minutes_to_decimal (("x").data) = 0 :=
  ⟨minutes_to_decimal_spec.1 (("12").data) (("30").data) 12 30 (by decide) (by decide),
   minutes_to_decimal_spec.2 (("x").data) (fun h => h)⟩

/-- C7: on every valid `"F-I"` height string `heightToInches` returns
`feet*12 + inches`, and on every malformed input it returns exactly
`72`. -/
theorem height_to_inches_spec :
    (∀ a b x y, ('-') ∉ a → ('-') ∉ b → pyInt? a = some x → pyInt? b = some y →
      parse_height_to_inches (a ++ ('-') :: b) = x * 12 + y) ∧
    (∀ s, ¬ heightWF s → parse_height_to_inches s = 72) := by
  constructor
  · intro a b x y hna hnb hx hy
    have hca : ∀ c ∈ a, c ≠ '-' := fun c hc heq => hna (heq ▸ hc)
    have hcb : ∀ c ∈ b, c ≠ '-' := fun c hc heq => hnb (heq ▸ hc)
    have hmem : ('-') ∈ a ++ ('-') :: b :=
      List.mem_append_right a (List.mem_cons_self _ _)
    have hne : ¬(a ++ ('-') :: b = [] ∨ a ++ ('-') :: b = ("nan").data) := by
      rintro (h | h)
      · have : ('-') ∈ ([] : Str) := h ▸ hmem
        simp at this
      · have : ('-') ∈ ("nan").data := h ▸ hmem
        revert this
        decide
    have hsplit : pySplit ('-') (a ++ ('-') :: b) = [a, b] := by
      rw [pySplit_append hca, pySplit_no_sep hcb]
    rw [parse_height_eq_of_split hne hmem hsplit, hx, hy]
  · intro s hwf
    by_cases h0 : s = [] ∨ s = ("nan").data
    · unfold parse_height_to_inches
      rw [if_pos h0]
    · by_cases hc : ('-') ∈ s
      · rcases hsplit : pySplit ('-') s with _ | ⟨a, _ | ⟨b, _ | ⟨c, t⟩⟩⟩
        · unfold parse_height_to_inches
          rw [if_neg h0, if_pos hc, hsplit]
        · unfold parse_height_to_inches
          rw [if_neg h0, if_pos hc, hsplit]
        · rw [parse_height_eq_of_split h0 hc hsplit]
          rcases hA : pyInt? a with _ | x <;> rcases hB : pyInt? b with _ | y
          · rfl
          · rfl
          · rfl
          · exfalso
            apply hwf
            unfold heightWF
            rw [hsplit]
            exact ⟨by rw [hA]; rfl, by rw [hB]; rfl⟩
        · unfold parse_height_to_inches
          rw [if_neg h0, if_pos hc, hsplit]
      · unfold parse_height_to_inches
        rw [if_neg h0, if_neg hc]

/-- Witness for C7 at the inputs `"6-1"` (valid) and `"nan"`
(malformed). -/
theorem height_to_inches_spec_w :
    parse_height_to_inches (("6").data ++ ('-') :: ("1").data) = (6 : Int) * 12 + 1 ∧
    parse_height_to_inches (("nan").data) = 72 :=
  ⟨height_to_inches_spec.1 (("6").data) (("1").data) 6 1 (by decide) (by decide)
      (by decide) (by decide),
   height_to_inches_spec.2 (("nan").data) (fun h => h)⟩

lemma pyLookup_some {α : Type} : ∀ {l : List (Str × α)} {q : Str} {v : α},
    pyLookup l q = some v → (q, v) ∈ l := by
  intro l
  induction l with
  | nil => intro q v h; exact absurd h (by simp [pyLookup])
  | cons p rest ih =>
    intro q v h
    obtain ⟨k, w⟩ := p
    unfold pyLookup at h
    split at h
    case isTrue hqk =>
      injection h with hv
      subst hv
      subst hqk
      exact List.mem_cons_self _ _
    case isFalse hqk => exact List.mem_cons_of_mem _ (ih h)

lemma pyLookup_none_of {α : Type} : ∀ {l : List (Str × α)} {q : Str},
    (∀ pr ∈ l, ¬ pr.1 = q) → pyLookup l q = none := by
  intro l
  induction l with
  | nil => intro q _; rfl
  | cons p rest ih =>
    intro q h
    obtain ⟨k, w⟩ := p
    have hk : ¬ q = k := fun hq => h (k, w) (List.mem_cons_self _ _) hq.symm
    unfold pyLookup
    rw [if_neg hk]
    exact ih (fun pr hpr => h pr (List.mem_cons_of_mem _ hpr))

lemma position_values_le_ten : ∀ pr ∈ position_mapping, (pr.2).length ≤ 10 := by decide

lemma position_values_not_keys :
    ∀ pr ∈ position_mapping, pyLookup position_mapping pr.2 = none := by decide

lemma position_keys_len_ne_ten : ∀ pr ∈ position_mapping, ¬ (pr.1).length = 10 := by decide

lemma position_keys_two_le : ∀ pr ∈ position_mapping, 2 ≤ (pr.1).length := by decide

lemma position_keys_snd_char :
    ∀ pr ∈ position_mapping, ¬ (pr.1).get? 1 = some ('-') := by decide

lemma trunc_parts_len (p : Str) :
    ∀ c ∈ ((pySplit ('-') p).filter (fun part => !part.isEmpty)).map
        (fun part => part.take 1), c.length = 1 := by
  intro c hc
  rcases List.mem_map.mp hc with ⟨part, hmem, rfl⟩
  have hne := (List.mem_filter.mp hmem).2
  cases part with
  | nil => simp at hne
  | cons d ds =>
    rw [List.length_take]
    simp

lemma pyJoin_shape : ∀ (cs : List Str), (∀ c ∈ cs, c.length = 1) →
    (pyJoin [('-')] cs).length ≤ 1 ∨ (pyJoin [('-')] cs).get? 1 = some ('-') := by
  intro cs h
  rcases cs with _ | ⟨c, _ | ⟨c', rest⟩⟩
  · exact Or.inl (by simp [pyJoin])
  · left
    have hc := h c (List.mem_cons_self _ _)
    show (pyJoin [('-')] [c]).length ≤ 1
    rw [show pyJoin [('-')] [c] = c from rfl]
    exact hc.le
  · right
    have hc := h c (List.mem_cons_self _ _)
    obtain ⟨ch, rfl⟩ := List.length_eq_one.mp hc
    rfl

lemma truncatePosition_not_key {p : Str} (hp : 10 < p.length) :
    pyLookup position_mapping (truncatePosition p) = none := by
  unfold truncatePosition
  split
  · apply pyLookup_none_of
    intro pr hpr heq
    have hshape := pyJoin_shape _ (trunc_parts_len p)
    rcases hshape with hlen1 | hget
    · have hle : ((pyJoin [('-')]
          (((pySplit ('-') p).filter (fun part => !part.isEmpty)).map
            (fun part => part.take 1))).take 10).length ≤ 1 := by
        rw [List.length_take]
        omega
      have h2 := position_keys_two_le pr hpr
      rw [heq] at h2
      omega
    · have hg : ((pyJoin [('-')]
          (((pySplit ('-') p).filter (fun part => !part.isEmpty)).map
            (fun part => part.take 1))).take 10).get? 1 = some ('-') := by
        rw [List.get?_take (by omega)]
        exact hget
      have h3 := position_keys_snd_char pr hpr
      rw [heq] at h3
      exact h3 hg
  · apply pyLookup_none_of
    intro pr hpr heq
    have hl : (p.take 10).length = 10 := by
      rw [List.length_take]
      omega
    have h2 := position_keys_len_ne_ten pr hpr
    rw [heq, hl] at h2
    exact h2 rfl

lemma truncatePosition_len (p : Str) : (truncatePosition p).length ≤ 10 := by
  unfold truncatePosition
  split <;> (rw [List.length_take]; omega)

lemma normalize_position_len : ∀ x, (normalize_position x).length ≤ 10 := by
  intro x
  unfold normalize_position
  split
  · decide
  · split
    case _ v heq => exact position_values_le_ten _ (pyLookup_some heq)
    case _ heq =>
      split
      · exact truncatePosition_len _
      · omega

lemma normalize_position_not_key :
    ∀ x, pyLookup position_mapping (normalize_position x) = none := by
  intro x
  unfold normalize_position
  split
  · decide
  · split
    case _ v heq => exact position_values_not_keys _ (pyLookup_some heq)
    case _ heq =>
      split
      case isTrue hlen => exact truncatePosition_not_key hlen
      case isFalse hlen => exact heq

lemma normalize_position_fixed {y : Str} (h1 : y ≠ []) (h2 : y ≠ ("nan").data)
    (h3 : pyStrip y = y) (h4 : pyLookup position_mapping y = none)
    (h5 : y.length ≤ 10) : normalize_position y = y := by
  unfold normalize_position
  rw [if_neg (by rintro (h | h); exacts [h1 h, h2 h])]
  rw [h3, h4]
  show (if 10 < y.length then truncatePosition y else y) = y
  rw [if_neg (by omega)]

/-- C5 counterexample: `normalizePosition` is not idempotent as
stated.  On the input `" nan "` the first application strips to the
literal `"nan"` (the pre-strip guard sees `" nan "`, not `"nan"`), and
the second application maps `"nan"` to `"G"`. -/
theorem normalize_position_not_idempotent :
    ¬ (normalize_position (normalize_position ((" nan ").data)) =
        normalize_position ((" nan ").data)) := by decide

/-- C5 (amended): the output of `normalizePosition` always has length
at most 10, and applying `normalizePosition` twice agrees with
applying it once on every input whose single-application output is
nonempty, differs from the literal `"nan"`, and is unchanged by
whitespace stripping. -/
theorem normalize_position_spec_amended :
    (∀ x, (normalize_position x).length ≤ 10) ∧
    (∀ x, normalize_position x ≠ [] → normalize_position x ≠ ("nan").data →
      pyStrip (normalize_position x) = normalize_position x →
      normalize_position (normalize_position x) = normalize_position x) := by
  refine ⟨normalize_position_len, ?_⟩
  intro x h1 h2 h3
  exact normalize_position_fixed h1 h2 h3 (normalize_position_not_key x)
    (normalize_position_len x)

/-- Witness for the amended C5 at the input `"Point Guard"`. -/
theorem normalize_position_spec_amended_w :
    normalize_position (normalize_position (("Point Guard").data)) =
      normalize_position (("Point Guard").data) :=
  normalize_position_spec_amended.2 (("Point Guard").data) (by decide) (by decide)
    (by decide)

lemma findPlayer_map_replace (ps : List PlayerRow) (r : PlayerRow)
    (hany : ps.any (fun x => decide (x.id = r.id)) = true) :
    findPlayer (ps.map (fun x => if x.id = r.id then r else x)) r.id = some r := by
  induction ps with
  | nil => simp at hany
  | cons x xs ih =>
    unfold findPlayer
    by_cases hx : x.id = r.id
    · simp only [List.map_cons, if_pos hx]
      rw [List.find?_cons_of_pos _ (by simp)]
    · simp only [List.map_cons, if_neg hx]
      rw [List.find?_cons_of_neg _ (by simp [hx])]
      apply ih
      simp only [List.any_cons, Bool.or_eq_true, decide_eq_true_eq] at hany
      rcases hany with h | h
      · exact absurd h hx
      · exact h

lemma findPlayer_append_new (ps : List PlayerRow) (r : PlayerRow)
    (hnone : ps.any (fun x => decide (x.id = r.id)) = false) :
    findPlayer (ps ++ [r]) r.id = some r := by
  induction ps with
  | nil =>
    unfold findPlayer
    simp [List.find?]
  | cons x xs ih =>
    simp only [List.any_cons, Bool.or_eq_false_iff] at hnone
    unfold findPlayer
    rw [List.cons_append, List.find?_cons_of_neg _ (by simp_all)]
    exact ih hnone.2

lemma findPlayer_upsertPlayer (ps : List PlayerRow) (r : PlayerRow) :
    findPlayer (upsertPlayer ps r) r.id = some r := by
  unfold upsertPlayer
  split
  case isTrue h => exact findPlayer_map_replace ps r h
  case isFalse h =>
    rw [Bool.not_eq_true] at h
    exact findPlayer_append_new ps r h

lemma mem_upsertPlayer {ps : List PlayerRow} {r y : PlayerRow}
    (hy : y ∈ upsertPlayer ps r) : y ∈ ps ∨ y = r := by
  unfold upsertPlayer at hy
  split at hy
  · rcases List.mem_map.mp hy with ⟨x, hx, hfx⟩
    by_cases hid : x.id = r.id
    · rw [if_pos hid] at hfx
      exact Or.inr hfx.symm
    · rw [if_neg hid] at hfx
      exact Or.inl (hfx ▸ hx)
  · rcases List.mem_append.mp hy with h | h
    · exact Or.inl h
    · simp at h
      exact Or.inr h

lemma teamRefOk_upsert {db : DB} {r : PlayerRow} (hok : teamRefOk db)
    (hr : ∀ t, r.team_id = some t → t ∈ db.teams) :
    teamRefOk { db with players := upsertPlayer db.players r } := by
  intro y hy t ht
  rcases mem_upsertPlayer hy with h | h
  · exact hok y h t ht
  · exact hr t (h ▸ ht)

lemma chosen_eq_spec (api gid : Str) (teams : List Str) :
    (if api = [] ∨ api = ("0").data ∨ api = ("None").data then gid
     else if api ∈ teams then api else gid) = specChosenTeam api gid teams := by
  unfold specChosenTeam
  by_cases h0 : api = [] ∨ api = ("0").data ∨ api = ("None").data
  · rw [if_pos h0, if_pos h0]
  · rw [if_neg h0, if_neg h0]
    by_cases hmem : api ∈ teams
    · rw [if_pos hmem, if_neg (not_not_intro hmem)]
    · rw [if_neg hmem, if_pos hmem]

/-- C1: for every unknown-player row whose supplementary fetch
succeeds and whose resolution is accepted, the persisted player's team
is exactly the one the specification's tie-break dictates: the game
team when the provider-listed team is empty, `"0"` or `"None"`; the
game team when the provider-listed team is not persisted locally;
otherwise the provider-listed team. -/
theorem resolve_team_choice :
    ∀ (provider : Str → Option PlayerDetails) (db : DB) (d : Row)
      (det : PlayerDetails),
      provider (rowPlayerId d) = some det →
      (add_unknown_player provider db d).1 = true →
      ∃ r, findPlayer (add_unknown_player provider db d).2.players
          (rowPlayerId d) = some r ∧
        r.team_id = some (specChosenTeam det.team_id (rowGameTeamId d) db.teams) := by
  intro provider db d det hdet hok
  simp only [add_unknown_player] at hok ⊢
  rw [hdet] at hok ⊢
  dsimp only at hok ⊢
  set t := (if det.team_id = [] ∨ det.team_id = ("0").data ∨ det.team_id = ("None").data
      then rowGameTeamId d
      else if det.team_id ∈ db.teams then det.team_id else rowGameTeamId d) with ht
  by_cases hmem : t ∈ db.teams
  · rw [if_pos hmem]
    refine ⟨_, findPlayer_upsertPlayer db.players _, ?_⟩
    dsimp only
    rw [ht, chosen_eq_spec]
  · rw [if_neg hmem] at hok
    simp at hok

/-- Witness for C1: provider lists team `"T2"`, which is persisted
locally, so the resolved team is `"T2"` although the game team is
`"T1"`. -/
theorem resolve_team_choice_w :
    ∃ r, findPlayer (add_unknown_player
        (fun _ => some ⟨73, 180, some 25, ("PG").data, 3, ("T2").data, ("X").data⟩)
        ⟨[("T1").data, ("T2").data], []⟩
        [(("PLAYER_ID").data, .pint 9),
         (("TEAM_ID").data, .pstr (("T1").data))]).2.players
      (rowPlayerId [(("PLAYER_ID").data, .pint 9),
         (("TEAM_ID").data, .pstr (("T1").data))]) = some r ∧
      r.team_id = some (specChosenTeam (("T2").data)
        (rowGameTeamId [(("PLAYER_ID").data, .pint 9),
          (("TEAM_ID").data, .pstr (("T1").data))])
        [("T1").data, ("T2").data]) :=
  resolve_team_choice
    (fun _ => some ⟨73, 180, some 25, ("PG").data, 3, ("T2").data, ("X").data⟩)
    ⟨[("T1").data, ("T2").data], []⟩
    [(("PLAYER_ID").data, .pint 9), (("TEAM_ID").data, .pstr (("T1").data))]
    ⟨73, 180, some 25, ("PG").data, 3, ("T2").data, ("X").data⟩
    rfl (by decide)

/-- C2: the resolver preserves the player-to-team foreign-key
invariant: the team set is unchanged, every persisted player's
non-null team reference still names a persisted team, and when the
final team-existence guard fails the resolver returns `false` without
writing anything. -/
theorem resolver_preserves_team_fk :
    ∀ (provider : Str → Option PlayerDetails) (db : DB) (d : Row),
      teamRefOk db →
      (add_unknown_player provider db d).2.teams = db.teams ∧
      teamRefOk (add_unknown_player provider db d).2 ∧
      ((add_unknown_player provider db d).1 = false →
        (add_unknown_player provider db d).2 = db) := by
  intro provider db d hok
  simp only [add_unknown_player]
  rcases hdet : provider (rowPlayerId d) with _ | det
  all_goals dsimp only
  · by_cases hmem : rowGameTeamId d ∈ db.teams
    · rw [if_pos hmem]
      refine ⟨rfl, ?_, by intro h; simp at h⟩
      refine teamRefOk_upsert hok ?_
      intro u hu
      injection hu with h
      subst h
      exact hmem
    · rw [if_neg hmem]
      exact ⟨rfl, hok, fun _ => rfl⟩
  · set t := (if det.team_id = [] ∨ det.team_id = ("0").data ∨ det.team_id = ("None").data
        then rowGameTeamId d
        else if det.team_id ∈ db.teams then det.team_id else rowGameTeamId d) with ht
    by_cases hmem : t ∈ db.teams
    · rw [if_pos hmem]
      refine ⟨rfl, ?_, by intro h; simp at h⟩
      refine teamRefOk_upsert hok ?_
      intro u hu
      injection hu with h
      subst h
      exact hmem
    · rw [if_neg hmem]
      exact ⟨rfl, hok, fun _ => rfl⟩

/-- Witness for C2: a store with one team and no players, a fetch
failure, and a row whose game team is persisted. -/
theorem resolver_preserves_team_fk_w :
    (add_unknown_player (fun _ => none) ⟨[("T1").data], []⟩
        [(("PLAYER_ID").data, .pint 2),
         (("TEAM_ID").data, .pstr (("T1").data))]).2.teams = [("T1").data] ∧
    teamRefOk (add_unknown_player (fun _ => none) ⟨[("T1").data], []⟩
        [(("PLAYER_ID").data, .pint 2),
         (("TEAM_ID").data, .pstr (("T1").data))]).2 ∧
    ((add_unknown_player (fun _ => none) ⟨[("T1").data], []⟩
        [(("PLAYER_ID").data, .pint 2),
         (("TEAM_ID").data, .pstr (("T1").data))]).1 = false →
      (add_unknown_player (fun _ => none) ⟨[("T1").data], []⟩
        [(("PLAYER_ID").data, .pint 2),
         (("TEAM_ID").data, .pstr (("T1").data))]).2 =
        ⟨[("T1").data], []⟩) :=
  resolver_preserves_team_fk _ _ _ (by intro r hr; simp at hr)

/-- C3: when the supplementary fetch fails entirely, the resolver
materializes the player with exactly the documented defaults — team =
`gameTeamId`, age undefined, position `"G"`, height 72, weight 200,
experience 0 — subject only to the final team-existence guard. -/
theorem resolve_defaults_on_fetch_failure :
    ∀ (provider : Str → Option PlayerDetails) (db : DB) (d : Row),
      provider (rowPlayerId d) = none →
      add_unknown_player provider db d =
        (if rowGameTeamId d ∈ db.teams then
          (true, ⟨db.teams, upsertPlayer db.players
            ⟨rowPlayerId d, rowPlayerName d, some (rowGameTeamId d), none,
             ("G").data, 72, 200, 0⟩⟩)
        else (false, db)) := by
  intro provider db d hp
  simp only [add_unknown_player]
  rw [hp]

/-- Witness for C3: fetch failure with a persisted game team; the
default row is written and the call succeeds. -/
theorem resolve_defaults_on_fetch_failure_w :
    add_unknown_player (fun _ => none) ⟨[("T1").data], []⟩
        [(("PLAYER_ID").data, .pint 9),
         (("TEAM_ID").data, .pstr (("T1").data))] =
      (if rowGameTeamId [(("PLAYER_ID").data, .pint 9),
            (("TEAM_ID").data, .pstr (("T1").data))] ∈ [("T1").data] then
        (true, ⟨[("T1").data], upsertPlayer []
          ⟨rowPlayerId [(("PLAYER_ID").data, .pint 9),
             (("TEAM_ID").data, .pstr (("T1").data))],
           rowPlayerName [(("PLAYER_ID").data, .pint 9),
             (("TEAM_ID").data, .pstr (("T1").data))],
           some (rowGameTeamId [(("PLAYER_ID").data, .pint 9),
             (("TEAM_ID").data, .pstr (("T1").data))]),
           none, ("G").data, 72, 200, 0⟩⟩)
      else (false, (⟨[("T1").data], []⟩ : DB))) :=
  resolve_defaults_on_fetch_failure (fun _ => none) ⟨[("T1").data], []⟩
    [(("PLAYER_ID").data, .pint 9), (("TEAM_ID").data, .pstr (("T1").data))] rfl

lemma findTable_filter_ne (sets : List ResultSet) :
    findTable (("TeamStats").data)
        (sets.filter (fun rs => decide (rs.name ≠ ("PlayerStats").data))) =
      findTable (("TeamStats").data) sets := by
  induction sets with
  | nil => rfl
  | cons rs rest ih =>
    by_cases hps : rs.name = ("PlayerStats").data
    · rw [List.filter_cons_of_neg (by simp [hps])]
      unfold findTable
      rw [List.find?_cons_of_neg _ (by simp [hps])]
      exact ih
    · rw [List.filter_cons_of_pos (by simp [hps])]
      unfold findTable
      by_cases hts : rs.name = ("TeamStats").data
      · rw [List.find?_cons_of_pos _ (by simp [hts]),
          List.find?_cons_of_pos _ (by simp [hts])]
      · rw [List.find?_cons_of_neg _ (by simp [hts]),
          List.find?_cons_of_neg _ (by simp [hts])]
        exact ih

/-- C4: a payload with no `"PlayerStats"` table parses to an empty
player-row batch with no side effects rather than an error, and
removing `"PlayerStats"` tables from a payload does not change what
`parse_team_stats` produces from it. -/
theorem missing_player_table :
    (∀ (provider : Str → Option PlayerDetails) (sets : List ResultSet)
        (game_id home_team_id : Str) (db : DB) (existing : List Str),
      (∀ rs ∈ sets, rs.name ≠ ("PlayerStats").data) →
      parse_player_stats provider sets game_id home_team_id db existing =
        ⟨db, existing, [], []⟩) ∧
    (∀ (sets : List ResultSet) (game_id home_team_id : Str),
      parse_team_stats
          (sets.filter (fun rs => decide (rs.name ≠ ("PlayerStats").data)))
          game_id home_team_id =
        parse_team_stats sets game_id home_team_id) := by
  constructor
  · intro provider sets game_id home db existing h
    unfold parse_player_stats
    have hnone : findTable (("PlayerStats").data) sets = none := by
      unfold findTable
      rw [List.find?_eq_none]
      intro rs hrs
      simp [h rs hrs]
    rw [hnone]
  · intro sets game_id home
    unfold parse_team_stats
    rw [findTable_filter_ne]

/-- Witness for C4: a payload holding only a `"TeamStats"` table. -/
theorem missing_player_table_w :
    parse_player_stats (fun _ => none) [⟨("TeamStats").data, [], []⟩]
        (("G1").data) (("H").data) ⟨[], []⟩ [] =
      ⟨⟨[], []⟩, [], [], []⟩ ∧
    parse_team_stats ([⟨("TeamStats").data, [], []⟩].filter
        (fun rs => decide (rs.name ≠ ("PlayerStats").data)))
        (("G1").data) (("H").data) =
      parse_team_stats [⟨("TeamStats").data, [], []⟩] (("G1").data) (("H").data) :=
  ⟨missing_player_table.1 (fun _ => none) [⟨("TeamStats").data, [], []⟩]
      (("G1").data) (("H").data) ⟨[], []⟩ [] (by decide),
   missing_player_table.2 [⟨("TeamStats").data, [], []⟩] (("G1").data) (("H").data)⟩

/-- C9 counterexample: a row whose player id is already known is not
always accepted — a `"0:00"`-minutes row of a known player is skipped
by the minutes filter, so the accepted batch does not receive it (the
state is entirely unchanged). -/
theorem known_player_row_cex :
    processPlayerRow (fun _ => none) (("G1").data) (("H").data)
        [("MIN").data, ("PLAYER_ID").data, ("TEAM_ID").data]
        ⟨⟨[], []⟩, [("7").data], [], []⟩
        [.pstr (("0:00").data), .pint 7, .pint 1] =
      ⟨⟨[], []⟩, [("7").data], [], []⟩ ∧
    rowPlayerId (mkDict [("MIN").data, ("PLAYER_ID").data, ("TEAM_ID").data]
        [.pstr (("0:00").data), .pint 7, .pint 1]) ∈ [("7").data] := by
  constructor
  · rfl
  · decide

/-- C9 (amended): for every stats row that passes the minutes filter,
a row of an already-known player is accepted as-is with no provider
fetch and no store write (only the accepted batch grows); and whenever
an unknown player's resolution succeeds, the accepted id is added to
the known set, so it cannot be resolved again in the same run. -/
theorem known_player_no_refetch_amended :
    ∀ (provider : Str → Option PlayerDetails) (game_id home_team_id : Str)
      (headers : List Str) (st : Outcome PlayerGameStats) (row : List PyVal),
      (skipMin (mkDict headers row) = false →
        rowPlayerId (mkDict headers row) ∈ st.existing →
        processPlayerRow provider game_id home_team_id headers st row =
          ⟨st.db, st.existing, st.fetched,
           st.stats ++ [mkPlayerStat headers row game_id home_team_id]⟩) ∧
      (skipMin (mkDict headers row) = false →
        rowPlayerId (mkDict headers row) ∉ st.existing →
        (add_unknown_player provider st.db (mkDict headers row)).1 = true →
        rowPlayerId (mkDict headers row) ∈
          (processPlayerRow provider game_id home_team_id headers st row).existing) := by
  intro provider game_id home headers st row
  constructor
  · intro hskip hmem
    unfold processPlayerRow
    dsimp only
    rw [hskip]
    rw [if_neg (by simp), if_pos hmem]
  · intro hskip hnmem hok
    unfold processPlayerRow
    dsimp only
    rw [hskip]
    rw [if_neg (by simp), if_neg hnmem, if_pos hok]
    dsimp only
    exact List.mem_append_right _ (List.mem_cons_self _ _)

/-- Witness for the amended C9: a 30-minute row of the already-known
player `"7"` is accepted with no fetch and no write. -/
theorem known_player_no_refetch_amended_w :
    processPlayerRow (fun _ => none) (("G1").data) (("H").data)
        [("MIN").data, ("PLAYER_ID").data, ("TEAM_ID").data]
        ⟨⟨[], []⟩, [("7").data], [], []⟩
        [.pstr (("30:00").data), .pint 7, .pint 1] =
      ⟨⟨[], []⟩, [("7").data], [],
       [mkPlayerStat [("MIN").data, ("PLAYER_ID").data, ("TEAM_ID").data]
          [.pstr (("30:00").data), .pint 7, .pint 1] (("G1").data) (("H").data)]⟩ :=
  (known_player_no_refetch_amended (fun _ => none) (("G1").data) (("H").data)
      [("MIN").data, ("PLAYER_ID").data, ("TEAM_ID").data]
      ⟨⟨[], []⟩, [("7").data], [], []⟩
      [.pstr (("30:00").data), .pint 7, .pint 1]).1 (by decide) (by decide)

/-- C10: a box-score row whose minutes entry is absent, null, empty,
or `"0:00"` is skipped by both player-stats parsers before the
unknown-player check: the state — store, known ids, fetch log and
accepted batch — is completely unchanged. -/
theorem dnp_rows_skipped :
    ∀ (provider : Str → Option PlayerDetails) (game_id home_team_id : Str)
      (headers : List Str) (st : Outcome PlayerGameStats)
      (stA : Outcome PlayerAdvancedStats) (row : List PyVal),
      (dget (mkDict headers row) (("MIN").data) = none ∨
       dget (mkDict headers row) (("MIN").data) = some .pnone ∨
       dget (mkDict headers row) (("MIN").data) = some (.pstr []) ∨
       dget (mkDict headers row) (("MIN").data) = some (.pstr (("0:00").data))) →
      processPlayerRow provider game_id home_team_id headers st row = st ∧
      processAdvRow provider game_id home_team_id headers stA row = stA := by
  intro provider game_id home headers st stA row h
  have hskip : skipMin (mkDict headers row) = true := by
    unfold skipMin dgetD
    rcases h with h | h | h | h <;> rw [h] <;> rfl
  constructor
  · unfold processPlayerRow
    dsimp only
    rw [hskip]
    rw [if_pos rfl]
  · unfold processAdvRow
    dsimp only
    rw [hskip]
    rw [if_pos rfl]

/-- Witness for C10: a `"0:00"` row leaves both parsers' states
unchanged. -/
theorem dnp_rows_skipped_w :
    processPlayerRow (fun _ => none) (("G1").data) (("H").data) [("MIN").data]
        ⟨⟨[], []⟩, [], [], []⟩ [.pstr (("0:00").data)] = ⟨⟨[], []⟩, [], [], []⟩ ∧
    processAdvRow (fun _ => none) (("G1").data) (("H").data) [("MIN").data]
        ⟨⟨[], []⟩, [], [], []⟩ [.pstr (("0:00").data)] = ⟨⟨[], []⟩, [], [], []⟩ :=
  dnp_rows_skipped (fun _ => none) (("G1").data) (("H").data) [("MIN").data]
    ⟨⟨[], []⟩, [], [], []⟩ ⟨⟨[], []⟩, [], [], []⟩ [.pstr (("0:00").data)]
    (Or.inr (Or.inr (Or.inr (by decide))))

lemma statKey_replace (r x : PlayerGameStats) :
    statKey (if statKey x = statKey r then r else x) = statKey x := by
  split
  case isTrue h => exact h.symm
  case isFalse => rfl

lemma any_map_replace (t : List PlayerGameStats) (r : PlayerGameStats) (k : Str × Str) :
    (t.map (fun x => if statKey x = statKey r then r else x)).any
        (fun x => decide (statKey x = k)) =
      t.any (fun x => decide (statKey x = k)) := by
  rw [List.any_map]
  have : ((fun x => decide (statKey x = k)) ∘
      (fun x => if statKey x = statKey r then r else x)) =
      fun x => decide (statKey x = k) := by
    funext x
    simp only [Function.comp_apply, statKey_replace]
  rw [this]

lemma contains_upsert_self (t : List PlayerGameStats) (r : PlayerGameStats) :
    (upsertStat t r).any (fun x => decide (statKey x = statKey r)) = true := by
  unfold upsertStat
  split
  case isTrue h =>
    rw [any_map_replace]
    exact h
  case isFalse h =>
    rw [List.any_append]
    simp

lemma contains_upsert_mono {t : List PlayerGameStats} {k : Str × Str}
    (h : t.any (fun x => decide (statKey x = k)) = true) (r : PlayerGameStats) :
    (upsertStat t r).any (fun x => decide (statKey x = k)) = true := by
  unfold upsertStat
  split
  · rw [any_map_replace]
    exact h
  · rw [List.any_append, h]
    rfl

lemma contains_fold {t : List PlayerGameStats} {k : Str × Str}
    (h : t.any (fun x => decide (statKey x = k)) = true) (B : List PlayerGameStats) :
    (List.foldl upsertStat t B).any (fun x => decide (statKey x = k)) = true := by
  induction B generalizing t with
  | nil => exact h
  | cons b B' ih => exact ih (contains_upsert_mono h b)

lemma map_replace_noop {t : List PlayerGameStats} {r : PlayerGameStats}
    (h : t.any (fun x => decide (statKey x = statKey r)) = false) :
    t.map (fun x => if statKey x = statKey r then r else x) = t := by
  induction t with
  | nil => rfl
  | cons x xs ih =>
    simp only [List.any_cons, Bool.or_eq_false_iff, decide_eq_false_iff_not] at h
    simp only [List.map_cons, if_neg h.1]
    rw [ih h.2]

lemma map_replace_idem (t : List PlayerGameStats) (r : PlayerGameStats) :
    (t.map (fun x => if statKey x = statKey r then r else x)).map
        (fun x => if statKey x = statKey r then r else x) =
      t.map (fun x => if statKey x = statKey r then r else x) := by
  rw [List.map_map]
  apply List.map_congr_left
  intro x _
  simp only [Function.comp_apply]
  by_cases h : statKey x = statKey r
  · simp [h]
  · simp [h]

lemma upsert_present {t : List PlayerGameStats} {r : PlayerGameStats}
    (h : t.any (fun x => decide (statKey x = statKey r)) = true) :
    upsertStat t r = t.map (fun x => if statKey x = statKey r then r else x) := by
  unfold upsertStat
  rw [if_pos h]

lemma upsert_map_comm {b r : PlayerGameStats} (hbr : statKey b ≠ statKey r)
    (t : List PlayerGameStats) :
    upsertStat (t.map (fun x => if statKey x = statKey r then r else x)) b =
      (upsertStat t b).map (fun x => if statKey x = statKey r then r else x) := by
  unfold upsertStat
  rw [any_map_replace]
  split
  case isTrue h =>
    rw [List.map_map, List.map_map]
    apply List.map_congr_left
    intro x _
    simp only [Function.comp_apply]
    by_cases hxr : statKey x = statKey r
    · simp [statKey_replace, hxr, Ne.symm hbr]
    · by_cases hxb : statKey x = statKey b
      · rw [statKey_replace, statKey_replace]
        simp [hxr, hxb, hbr, Ne.symm hbr]
      · simp [statKey_replace, hxr, hxb]
  case isFalse h =>
    rw [List.map_append]
    simp [hbr]

lemma upsert_map_same {b r : PlayerGameStats} (hbr : statKey b = statKey r)
    (t : List PlayerGameStats) :
    upsertStat (t.map (fun x => if statKey x = statKey r then r else x)) b =
      upsertStat t b := by
  unfold upsertStat
  rw [any_map_replace]
  split
  case isTrue h =>
    rw [List.map_map]
    apply List.map_congr_left
    intro x _
    simp only [Function.comp_apply]
    by_cases hxr : statKey x = statKey r
    · simp [statKey_replace, hxr, hbr]
    · simp [statKey_replace, hxr, hbr]
  case isFalse h =>
    have h' : t.any (fun x => decide (statKey x = statKey r)) = false := by
      rw [Bool.not_eq_true] at h
      simpa only [hbr] using h
    rw [map_replace_noop h']

lemma fold_map_comm {r : PlayerGameStats} :
    ∀ (B : List PlayerGameStats), (∀ b ∈ B, statKey b ≠ statKey r) →
    ∀ (t : List PlayerGameStats),
      List.foldl upsertStat (t.map (fun x => if statKey x = statKey r then r else x)) B =
        (List.foldl upsertStat t B).map
          (fun x => if statKey x = statKey r then r else x) := by
  intro B
  induction B with
  | nil => intro _ t; rfl
  | cons b B' ih =>
    intro hB t
    simp only [List.foldl_cons]
    rw [upsert_map_comm (hB b (List.mem_cons_self _ _))]
    exact ih (fun b' hb' => hB b' (List.mem_cons_of_mem _ hb')) _

lemma fold_map_absorb {r : PlayerGameStats} :
    ∀ (B : List PlayerGameStats), (∃ b ∈ B, statKey b = statKey r) →
    ∀ (t : List PlayerGameStats),
      List.foldl upsertStat (t.map (fun x => if statKey x = statKey r then r else x)) B =
        List.foldl upsertStat t B := by
  intro B
  induction B with
  | nil =>
    intro h t
    rcases h with ⟨b, hb, _⟩
    simp at hb
  | cons b B' ih =>
    intro hB t
    simp only [List.foldl_cons]
    by_cases hbr : statKey b = statKey r
    · rw [upsert_map_same hbr]
    · rw [upsert_map_comm hbr]
      apply ih
      rcases hB with ⟨b', hb', hk⟩
      rcases List.mem_cons.mp hb' with rfl | hmem
      · exact absurd hk hbr
      · exact ⟨b', hmem, hk⟩

/-- C8: the batch upsert of `insert_player_game_stats` is idempotent:
applying the same batch twice leaves the table exactly as applying it
once — a row whose `(player_id, game_id)` key already exists has every
non-key field overwritten rather than inserted again or accumulated. -/
theorem upsert_idempotent :
    ∀ (batch tbl : List PlayerGameStats),
      insert_player_game_stats (insert_player_game_stats tbl batch) batch =
        insert_player_game_stats tbl batch := by
  intro batch
  induction batch with
  | nil => intro tbl; rfl
  | cons r B' ih =>
    intro tbl
    unfold insert_player_game_stats at ih ⊢
    simp only [List.foldl_cons]
    have hcontains : (List.foldl upsertStat (upsertStat tbl r) B').any
        (fun x => decide (statKey x = statKey r)) = true :=
      contains_fold (contains_upsert_self tbl r) B'
    rw [upsert_present hcontains]
    by_cases hex : ∃ b ∈ B', statKey b = statKey r
    · rw [fold_map_absorb B' hex]
      exact ih (upsertStat tbl r)
    · push_neg at hex
      have hmapu : (upsertStat tbl r).map
          (fun x => if statKey x = statKey r then r else x) = upsertStat tbl r := by
        unfold upsertStat
        split
        case isTrue h => exact map_replace_idem tbl r
        case isFalse h =>
          rw [Bool.not_eq_true] at h
          rw [List.map_append, map_replace_noop h]
          simp
      have hfix : (List.foldl upsertStat (upsertStat tbl r) B').map
          (fun x => if statKey x = statKey r then r else x) =
          List.foldl upsertStat (upsertStat tbl r) B' := by
        rw [← fold_map_comm B' hex, hmapu]
      rw [hfix]
      exact ih (upsertStat tbl r)
